import Mathlib

/-!
Shallow embedding of the feather-code Code128 core: the symbol alphabet
(encodings.rs), framing and checksum and the generic decode state machine
(internals/code128/mod.rs), and the legacy decoder (code128.rs).  Symbols are
modelled as natural numbers standing for the u8 instance of the Encoding trait;
u64 checksum arithmetic is modelled with an explicit reduction modulo 2 ^ 64 at
every accumulating step, matching wrapping semantics.
-/

namespace FeatherCode

/-- Code128 alphabets (enum Symbology in internals/code128/mod.rs), with
discriminants 103, 104, 105. -/
inductive Symbology where
  | A
  | B
  | C
deriving DecidableEq

/-- Discriminant of a Symbology value (the `start as u64` cast used by checksum). -/
def Symbology.val : Symbology → Nat
  | .A => 103
  | .B => 104
  | .C => 105

/-- Representation of Code128 patterns, one constructor per symbol value (enum Pattern in
encodings.rs, variants C0 through C106). -/
inductive Pattern where
  | C0 | C1 | C2 | C3 | C4 | C5 | C6 | C7 | C8 | C9
  | C10 | C11 | C12 | C13 | C14 | C15 | C16 | C17 | C18 | C19
  | C20 | C21 | C22 | C23 | C24 | C25 | C26 | C27 | C28 | C29
  | C30 | C31 | C32 | C33 | C34 | C35 | C36 | C37 | C38 | C39
  | C40 | C41 | C42 | C43 | C44 | C45 | C46 | C47 | C48 | C49
  | C50 | C51 | C52 | C53 | C54 | C55 | C56 | C57 | C58 | C59
  | C60 | C61 | C62 | C63 | C64 | C65 | C66 | C67 | C68 | C69
  | C70 | C71 | C72 | C73 | C74 | C75 | C76 | C77 | C78 | C79
  | C80 | C81 | C82 | C83 | C84 | C85 | C86 | C87 | C88 | C89
  | C90 | C91 | C92 | C93 | C94 | C95 | C96 | C97 | C98 | C99
  | C100 | C101 | C102 | C103 | C104 | C105 | C106
deriving DecidableEq

/-- Jump table conversion, impl From u8 for Pattern in encodings.rs: values 0 to 105 map to
the matching constructor and every other value falls to the default arm C106. -/
def Pattern.fromU8 (u : Nat) : Pattern :=
  match u with
  | 0 => .C0 | 1 => .C1 | 2 => .C2 | 3 => .C3 | 4 => .C4 | 5 => .C5
  | 6 => .C6 | 7 => .C7 | 8 => .C8 | 9 => .C9 | 10 => .C10 | 11 => .C11
  | 12 => .C12 | 13 => .C13 | 14 => .C14 | 15 => .C15 | 16 => .C16 | 17 => .C17
  | 18 => .C18 | 19 => .C19 | 20 => .C20 | 21 => .C21 | 22 => .C22 | 23 => .C23
  | 24 => .C24 | 25 => .C25 | 26 => .C26 | 27 => .C27 | 28 => .C28 | 29 => .C29
  | 30 => .C30 | 31 => .C31 | 32 => .C32 | 33 => .C33 | 34 => .C34 | 35 => .C35
  | 36 => .C36 | 37 => .C37 | 38 => .C38 | 39 => .C39 | 40 => .C40 | 41 => .C41
  | 42 => .C42 | 43 => .C43 | 44 => .C44 | 45 => .C45 | 46 => .C46 | 47 => .C47
  | 48 => .C48 | 49 => .C49 | 50 => .C50 | 51 => .C51 | 52 => .C52 | 53 => .C53
  | 54 => .C54 | 55 => .C55 | 56 => .C56 | 57 => .C57 | 58 => .C58 | 59 => .C59
  | 60 => .C60 | 61 => .C61 | 62 => .C62 | 63 => .C63 | 64 => .C64 | 65 => .C65
  | 66 => .C66 | 67 => .C67 | 68 => .C68 | 69 => .C69 | 70 => .C70 | 71 => .C71
  | 72 => .C72 | 73 => .C73 | 74 => .C74 | 75 => .C75 | 76 => .C76 | 77 => .C77
  | 78 => .C78 | 79 => .C79 | 80 => .C80 | 81 => .C81 | 82 => .C82 | 83 => .C83
  | 84 => .C84 | 85 => .C85 | 86 => .C86 | 87 => .C87 | 88 => .C88 | 89 => .C89
  | 90 => .C90 | 91 => .C91 | 92 => .C92 | 93 => .C93 | 94 => .C94 | 95 => .C95
  | 96 => .C96 | 97 => .C97 | 98 => .C98 | 99 => .C99 | 100 => .C100 | 101 => .C101
  | 102 => .C102 | 103 => .C103 | 104 => .C104 | 105 => .C105
  | _ => .C106

/-- Numerical cast from the enum to u8 (impl Into u8 for Pattern and Encoding.as_u8 in
encodings.rs): each constructor maps to its discriminant. -/
def Pattern.toU8 : Pattern -> Nat
  | .C0 => 0 | .C1 => 1 | .C2 => 2 | .C3 => 3 | .C4 => 4 | .C5 => 5
  | .C6 => 6 | .C7 => 7 | .C8 => 8 | .C9 => 9 | .C10 => 10 | .C11 => 11
  | .C12 => 12 | .C13 => 13 | .C14 => 14 | .C15 => 15 | .C16 => 16 | .C17 => 17
  | .C18 => 18 | .C19 => 19 | .C20 => 20 | .C21 => 21 | .C22 => 22 | .C23 => 23
  | .C24 => 24 | .C25 => 25 | .C26 => 26 | .C27 => 27 | .C28 => 28 | .C29 => 29
  | .C30 => 30 | .C31 => 31 | .C32 => 32 | .C33 => 33 | .C34 => 34 | .C35 => 35
  | .C36 => 36 | .C37 => 37 | .C38 => 38 | .C39 => 39 | .C40 => 40 | .C41 => 41
  | .C42 => 42 | .C43 => 43 | .C44 => 44 | .C45 => 45 | .C46 => 46 | .C47 => 47
  | .C48 => 48 | .C49 => 49 | .C50 => 50 | .C51 => 51 | .C52 => 52 | .C53 => 53
  | .C54 => 54 | .C55 => 55 | .C56 => 56 | .C57 => 57 | .C58 => 58 | .C59 => 59
  | .C60 => 60 | .C61 => 61 | .C62 => 62 | .C63 => 63 | .C64 => 64 | .C65 => 65
  | .C66 => 66 | .C67 => 67 | .C68 => 68 | .C69 => 69 | .C70 => 70 | .C71 => 71
  | .C72 => 72 | .C73 => 73 | .C74 => 74 | .C75 => 75 | .C76 => 76 | .C77 => 77
  | .C78 => 78 | .C79 => 79 | .C80 => 80 | .C81 => 81 | .C82 => 82 | .C83 => 83
  | .C84 => 84 | .C85 => 85 | .C86 => 86 | .C87 => 87 | .C88 => 88 | .C89 => 89
  | .C90 => 90 | .C91 => 91 | .C92 => 92 | .C93 => 93 | .C94 => 94 | .C95 => 95
  | .C96 => 96 | .C97 => 97 | .C98 => 98 | .C99 => 99 | .C100 => 100 | .C101 => 101
  | .C102 => 102 | .C103 => 103 | .C104 => 104 | .C105 => 105 | .C106 => 106

/-- Failure cases for encoding and decoding barcodes (enum Error in
barcode/format.rs). -/
inductive Error where
  | InvalidLength : Nat → Error
  | BadFormat : String → Error
  | EncodeErr : String → Error
  | DecodeErr : String → Error
deriving DecidableEq

/-- Result of a decode call (std Result of String and Error, as returned by
Decode::decode for Code128). -/
inductive DecodeResult where
  | ok : String → DecodeResult
  | err : Error → DecodeResult
deriving DecidableEq

/-- Model of slice split_last: returns the initial segment and the last element,
or none on an empty slice. -/
def splitLast : List Nat → Option (List Nat × Nat)
  | [] => none
  | [a] => some ([], a)
  | a :: b :: rest =>
    match splitLast (b :: rest) with
    | some (xs, last) => some (a :: xs, last)
    | none => none

/-- Framing function Code128::data in internals/code128/mod.rs: split off the
start symbol, require the last element to equal the stop value 106, take the
element before the stop as the check symbol, and recognise the start symbol as
one of the three start codes. -/
def data (s : List Nat) : Option (Symbology × List Nat × Nat) :=
  match s with
  | [] => none
  | start :: rest =>
    match splitLast rest with
    | none => none
    | some (body, stop) =>
      if stop = 106 then
        match splitLast body with
        | none => none
        | some (symbols, check) =>
          if start = 103 then some (.A, symbols, check)
          else if start = 104 then some (.B, symbols, check)
          else if start = 105 then some (.C, symbols, check)
          else none
      else none

/-- Weighted fold inside Format::checksum: positions start at 1 and the u64
accumulator wraps modulo 2 ^ 64 at each step. -/
def weightedSumAux : List Nat → Nat → Nat → Nat
  | [], _, sum => sum
  | x :: xs, pos, sum => weightedSumAux xs (pos + 1) ((sum + x * (pos + 1)) % 2 ^ 64)

/-- Format::checksum for Code128 in internals/code128/mod.rs: frame the datum,
add the start discriminant to the position-weighted sum of the data symbols in
u64 arithmetic, reduce modulo 103 and compare with the check symbol. -/
def checksum (s : List Nat) : Bool :=
  match data s with
  | none => false
  | some (start, symbols, check) =>
    decide (((weightedSumAux symbols 0 0 + start.val) % 2 ^ 64) % 103 = check)

/-- Mathematical weighted sum used by the specification of the checksum: sum of
data value times 1-indexed position, in unbounded arithmetic, at a given
starting offset. -/
def specWeightedAux : List Nat → Nat → Nat
  | [], _ => 0
  | x :: xs, pos => x * (pos + 1) + specWeightedAux xs (pos + 1)

/-- Mathematical weighted sum of a data slice with positions 1 to n, following
the words of the specification rather than the u64 fold. -/
def specWeighted (l : List Nat) : Nat :=
  specWeightedAux l 0

/-- Modelled from the spec: the Encoding::repr implementation is not under src
(only the trait declaration and its call sites are).  Under symbology A, plain
values 0 to 63 denote ASCII value plus 32 and values 64 to 95 denote ASCII
value minus 64; other values are left with an empty rendering since the spec
assigns them no character. -/
def reprA (v : Nat) : String :=
  if v < 64 then String.singleton (Char.ofNat (v + 32))
  else if v < 96 then String.singleton (Char.ofNat (v - 64))
  else ""

/-- Modelled from the spec: under symbology B, plain values 0 to 95 denote
ASCII value plus 32; other values are left with an empty rendering since the
spec assigns them no character. -/
def reprB (v : Nat) : String :=
  if v < 96 then String.singleton (Char.ofNat (v + 32))
  else ""

/-- Modelled from the spec: under symbology C, values 0 to 99 denote the two
decimal digits, tens digit then units digit; other values are left with an
empty rendering since the spec assigns them no character. -/
def reprC (v : Nat) : String :=
  if v < 100 then
    String.mk [Char.ofNat (v / 10 + 48), Char.ofNat (v % 10 + 48)]
  else ""

/-- States of the decode finite state machine (enum Parser local to
Decode::decode in internals/code128/mod.rs). -/
inductive Parser where
  | A
  | B
  | C
  | ShiftA
  | ShiftB
deriving DecidableEq

/-- Outcome of one state-machine match arm: continue in a state while appending
output, terminate on the stop symbol, or fail with a decode message. -/
inductive Step where
  | toState : Parser → String → Step
  | halt : Step
  | fail : String → Step
deriving DecidableEq

/-- One iteration of the decode state machine, arm for arm as in the nested
match of Decode::decode in internals/code128/mod.rs, in source order.  Note the
Parser::B arm: on 101 and on 99 the code stays in Parser::B even though the
source comments on those arms read switch to symbology A and switch to
symbology C. -/
def step (p : Parser) (v : Nat) : Step :=
  match p with
  | .A =>
    if v < 98 then .toState .A (reprA v)
    else if v = 100 then .toState .B ""      -- Switch to symbology B
    else if v = 99 then .toState .C ""       -- Switch to symbology C
    else if v = 98 then .toState .ShiftB ""  -- shift code
    else if v = 106 then .halt
    else if v = 102 ∨ v = 97 ∨ v = 96 ∨ v = 101 then .toState .A ""
    else .fail ("unrecognized encoding " ++ toString v)
  | .B =>
    if v < 98 then .toState .B (reprB v)
    else if v = 101 then .toState .B ""      -- code keeps Parser::B here
    else if v = 99 then .toState .B ""       -- code keeps Parser::B here
    else if v = 106 then .halt
    else if v = 98 then .toState .ShiftA ""  -- shift code
    else if v = 102 ∨ v = 97 ∨ v = 96 ∨ v = 100 then .toState .B ""
    else .fail ("unrecognized encoding " ++ toString v)
  | .C =>
    if v < 100 then .toState .C (reprC v)
    else if v = 100 then .toState .B ""      -- Switch to symbology B
    else if v = 101 then .toState .A ""      -- Switch to symbology A
    else if v = 106 then .halt
    else if v = 102 then .toState .C ""      -- function 1, disabled
    else .fail ("unexpected encoding " ++ toString v)
  | .ShiftA =>
    if v < 98 then .toState .B (reprA v)
    else .fail ("unexpected shifted encoding " ++ toString v)
  | .ShiftB =>
    if v < 98 then .toState .A (reprB v)
    else .fail ("unexpected shifted encoding " ++ toString v)

/-- Loop of the decode state machine over the framed data symbols, threading
the accumulated output string. -/
def parse (p : Parser) (l : List Nat) (acc : String) : DecodeResult :=
  match l with
  | [] => .ok acc
  | v :: rest =>
    match step p v with
    | .toState q out => parse q rest (acc ++ out)
    | .halt => .ok acc
    | .fail msg => .err (.DecodeErr msg)

/-- Initial parser state from the framed symbology (the match that seeds the
mutable state variable in Decode::decode). -/
def Parser.ofSymbology : Symbology → Parser
  | .A => .A
  | .B => .B
  | .C => .C

/-- Decode::decode for Code128 in internals/code128/mod.rs: reject sequences
shorter than 4 with InvalidLength, reject framing failures with BadFormat, and
otherwise run the state machine over the framed data symbols. -/
def decode (s : List Nat) : DecodeResult :=
  if s.length < 4 then .err (.InvalidLength s.length)
  else
    match data s with
    | none => .err (.BadFormat "unrecognized format")
    | some (sym, symbols, _) => parse (Parser.ofSymbology sym) symbols ""

/-- Loop of the legacy decoder Code128::decode in code128.rs, which walks the
stored data symbols under the current symbology; none models the aborting
unimplemented arms (the shift code 98 and out-of-range values). -/
def legacyDecodeAux : Symbology → List Nat → String → Option String
  | _, [], acc => some acc
  | .A, v :: rest, acc =>
    if v < 64 then legacyDecodeAux .A rest (acc.push (Char.ofNat (v + 32)))
    else if v < 96 then legacyDecodeAux .A rest (acc.push (Char.ofNat (v - 64)))
    else if v = 96 ∨ v = 97 ∨ v = 101 ∨ v = 102 then legacyDecodeAux .A rest acc
    else if v = 98 then none
    else if v = 99 then legacyDecodeAux .C rest acc
    else if v = 100 then legacyDecodeAux .B rest acc
    else if v = 106 then some acc
    else none
  | .B, v :: rest, acc =>
    if v < 96 then legacyDecodeAux .B rest (acc.push (Char.ofNat (v + 32)))
    else if v = 96 ∨ v = 97 ∨ v = 100 ∨ v = 102 then legacyDecodeAux .B rest acc
    else if v = 98 then none
    else if v = 99 then legacyDecodeAux .C rest acc
    else if v = 101 then legacyDecodeAux .A rest acc
    else if v = 106 then some acc
    else none
  | .C, v :: rest, acc =>
    if v < 100 then
      legacyDecodeAux .C rest
        ((acc.push (Char.ofNat ((v - v % 10) / 10 + 48))).push (Char.ofNat (v % 10 + 48)))
    else if v = 100 then legacyDecodeAux .B rest acc
    else if v = 101 then legacyDecodeAux .A rest acc
    else if v = 102 then legacyDecodeAux .C rest acc
    else if v = 106 then some acc
    else none

/-- Legacy decoder Code128::decode in code128.rs, run from the start symbology
over the stored symbols with an empty accumulator. -/
def legacyDecode (start : Symbology) (symbols : List Nat) : Option String :=
  legacyDecodeAux start symbols ""

end FeatherCode

namespace FeatherCode

theorem splitLast_append (l : List Nat) (a : Nat) : splitLast (l ++ [a]) = some (l, a) := by
  induction l with
  | nil => rfl
  | cons x xs ih =>
    cases xs with
    | nil => rfl
    | cons y ys =>
      simp only [List.cons_append] at ih ⊢
      rw [splitLast, ih]

theorem splitLast_eq_some (l : List Nat) :
    ∀ xs a, splitLast l = some (xs, a) → l = xs ++ [a] := by
  induction l with
  | nil => intro xs a h; simp [splitLast] at h
  | cons x t ih =>
    intro xs a h
    cases t with
    | nil =>
      simp [splitLast] at h
      simp [← h.1, ← h.2]
    | cons y ys =>
      rw [splitLast] at h
      cases hsl : splitLast (y :: ys) with
      | none => rw [hsl] at h; simp at h
      | some p =>
        obtain ⟨bs, last⟩ := p
        rw [hsl] at h
        simp only [Option.some.injEq, Prod.mk.injEq] at h
        obtain ⟨h1, h2⟩ := h
        have hrec := ih bs last hsl
        subst h1 h2
        simp [hrec]

theorem data_append (st : Nat) (b : List Nat) (c : Nat) :
    data (st :: (b ++ [c, 106])) =
      if st = 103 then some (.A, b, c)
      else if st = 104 then some (.B, b, c)
      else if st = 105 then some (.C, b, c)
      else none := by
  have h1 : b ++ [c, 106] = (b ++ [c]) ++ [106] := by simp
  rw [data, h1, splitLast_append]
  simp [splitLast_append]

theorem data_eq_some (s : List Nat) (sym : Symbology) (syms : List Nat) (check : Nat)
    (h : data s = some (sym, syms, check)) :
    s = sym.val :: (syms ++ [check, 106]) := by
  cases s with
  | nil => simp [data] at h
  | cons start rest =>
    rw [data] at h
    cases hsl : splitLast rest with
    | none => rw [hsl] at h; simp at h
    | some p =>
      obtain ⟨body, stop⟩ := p
      rw [hsl] at h
      simp only [] at h
      by_cases hstop : stop = 106
      · rw [if_pos hstop] at h
        cases hsl2 : splitLast body with
        | none => rw [hsl2] at h; simp at h
        | some q =>
          obtain ⟨syms2, check2⟩ := q
          rw [hsl2] at h
          simp only [] at h
          have hrest := splitLast_eq_some rest body stop hsl
          have hbody := splitLast_eq_some body syms2 check2 hsl2
          subst hstop hrest hbody
          split_ifs at h with h103 h104 h105 <;>
            simp only [Option.some.injEq, Prod.mk.injEq] at h
          · obtain ⟨hs1, hs2, hs3⟩ := h
            subst hs1 hs2 hs3 h103
            simp [Symbology.val]
          · obtain ⟨hs1, hs2, hs3⟩ := h
            subst hs1 hs2 hs3 h104
            simp [Symbology.val]
          · obtain ⟨hs1, hs2, hs3⟩ := h
            subst hs1 hs2 hs3 h105
            simp [Symbology.val]
      · rw [if_neg hstop] at h
        simp at h

/-- C1: claim that in decode state B, symbol 101 moves the machine to state A and
symbol 99 moves it to state C.  The code keeps Parser::B on both symbols, against
its own inline comments, so every subsequent symbol is still read under B: with
start code B, the sequences below decode 70 and 5 under symbology B instead of
switching. -/
theorem parserB_stays_on_switch :
    step Parser.B 101 = Step.toState Parser.B "" ∧
    step Parser.B 99 = Step.toState Parser.B "" ∧
    decode [104, 101, 70, 0, 106] = DecodeResult.ok "f" ∧
    decode [104, 99, 5, 0, 106] = DecodeResult.ok "%" := by decide

/-- C2: claim that every sequence of length less than 4 fails framing and has an
invalid checksum.  The code has no length guard in Code128::data: the length-3
sequence 103, 0, 106 frames successfully and its checksum verifies. -/
theorem short_sequence_frames :
    List.length [103, 0, 106] < 4 ∧
    data [103, 0, 106] = some (Symbology.A, [], 0) ∧
    checksum [103, 0, 106] = true := by decide

/-- C4: converting any integer in 0 to 105 to a Pattern and back yields the same
integer, and any integer in 106 to 255 converts to the stop pattern C106 with
round trip value 106, without error. -/
theorem pattern_u8_roundtrip :
    ∀ v < 256, (v ≤ 105 → Pattern.toU8 (Pattern.fromU8 v) = v) ∧
      (106 ≤ v → Pattern.fromU8 v = Pattern.C106 ∧ Pattern.toU8 (Pattern.fromU8 v) = 106) := by
  set_option maxRecDepth 8192 in decide

/-- Witness for the pattern round trip at the concrete inputs 77 and 200. -/
theorem pattern_u8_roundtrip_witness :
    Pattern.toU8 (Pattern.fromU8 77) = 77 ∧ Pattern.fromU8 200 = Pattern.C106 :=
  ⟨(pattern_u8_roundtrip 77 (by decide)).1 (by decide),
   ((pattern_u8_roundtrip 200 (by decide)).2 (by decide)).1⟩

/-- C5: decoding the start-A sequence with two uses of the shift code yields the
string SHiFT with an exclamation mark; in state ShiftB a plain symbol is rendered
under B and control returns to A, and in state ShiftA a plain symbol is rendered
under A and control returns to B. -/
theorem decode_shift_scenario :
    decode [103, 51, 40, 98, 73, 38, 52, 100, 98, 1, 34, 106] = DecodeResult.ok "SHiFT!" ∧
    (∀ v rest acc, v < 98 →
      parse Parser.ShiftB (v :: rest) acc = parse Parser.A rest (acc ++ reprB v)) ∧
    (∀ v rest acc, v < 98 →
      parse Parser.ShiftA (v :: rest) acc = parse Parser.B rest (acc ++ reprA v)) := by
  refine ⟨by decide, ?_, ?_⟩ <;> intro v rest acc hv <;> simp [parse, step, hv]

/-- Witness for the shift transitions at concrete inputs. -/
theorem decode_shift_scenario_witness :
    parse Parser.ShiftB [5] "" = parse Parser.A [] ("" ++ reprB 5) ∧
    parse Parser.ShiftA [7] "" = parse Parser.B [] ("" ++ reprA 7) :=
  ⟨decode_shift_scenario.2.1 5 [] "" (by decide),
   decode_shift_scenario.2.2 7 [] "" (by decide)⟩

/-- C6: in the legacy decoder, a plain symbol under symbology A with value below
64 contributes the character with ASCII code value plus 32
and a value between 64 and 95 contributes the character with ASCII code value
minus 64; under symbology C a value below 100 contributes the tens digit then the
units digit. -/
theorem legacy_plain_symbol_mapping (v : Nat) :
    (v < 64 → legacyDecode Symbology.A [v] = some (String.singleton (Char.ofNat (v + 32)))) ∧
    (64 ≤ v → v ≤ 95 →
      legacyDecode Symbology.A [v] = some (String.singleton (Char.ofNat (v - 64)))) ∧
    (v < 100 → legacyDecode Symbology.C [v] =
      some (String.mk [Char.ofNat (v / 10 + 48), Char.ofNat (v % 10 + 48)])) := by
  refine ⟨fun h => ?_, fun h1 h2 => ?_, fun h => ?_⟩
  · simp [legacyDecode, legacyDecodeAux, h]
    rfl
  · have hn : ¬ v < 64 := by omega
    have hlt : v < 96 := by omega
    simp [legacyDecode, legacyDecodeAux, hn, hlt]
    rfl
  · have harith : (v - v % 10) / 10 = v / 10 := by omega
    simp [legacyDecode, legacyDecodeAux, h, harith]
    rfl

/-- Witness for the legacy plain-symbol mapping at concrete inputs 16, 70 and 42. -/
theorem legacy_plain_symbol_mapping_witness :
    legacyDecode Symbology.A [16] = some (String.singleton (Char.ofNat (16 + 32))) ∧
    legacyDecode Symbology.A [70] = some (String.singleton (Char.ofNat (70 - 64))) ∧
    legacyDecode Symbology.C [42] =
      some (String.mk [Char.ofNat (42 / 10 + 48), Char.ofNat (42 % 10 + 48)]) :=
  ⟨(legacy_plain_symbol_mapping 16).1 (by decide),
   (legacy_plain_symbol_mapping 70).2.1 (by decide) (by decide),
   (legacy_plain_symbol_mapping 42).2.2 (by decide)⟩

/-- C9: whenever framing succeeds and the check symbol has numeric value 103 or
more, the checksum is invalid, because the expected value is a remainder modulo
103 and so lies below 103. -/
theorem checksum_false_on_large_check (s : List Nat) (sym : Symbology) (syms : List Nat)
    (check : Nat) (hd : data s = some (sym, syms, check)) (hc : 103 ≤ check) :
    checksum s = false := by
  unfold checksum
  rw [hd]
  simp only [decide_eq_false_iff_not]
  intro hEq
  have hlt : ((weightedSumAux syms 0 0 + sym.val) % 2 ^ 64) % 103 < 103 :=
    Nat.mod_lt _ (by norm_num)
  omega

/-- Witness for the large-check theorem with a start code sitting in the check slot. -/
theorem checksum_false_on_large_check_witness : checksum [103, 0, 103, 106] = false :=
  checksum_false_on_large_check [103, 0, 103, 106] Symbology.A [0] 103 (by decide) (by decide)

end FeatherCode

namespace FeatherCode

theorem weightedSumAux_eq (l : List Nat) :
    ∀ pos sum, sum < 2 ^ 64 →
      weightedSumAux l pos sum = (sum + specWeightedAux l pos) % 2 ^ 64 := by
  induction l with
  | nil =>
    intro pos sum h
    simp only [weightedSumAux, specWeightedAux, Nat.add_zero]
    exact (Nat.mod_eq_of_lt h).symm
  | cons x xs ih =>
    intro pos sum h
    rw [weightedSumAux, specWeightedAux,
      ih (pos + 1) ((sum + x * (pos + 1)) % 2 ^ 64) (Nat.mod_lt _ (by norm_num)),
      Nat.mod_add_mod, Nat.add_assoc]

theorem specWeightedAux_replicate (k : Nat) :
    ∀ (n pos : Nat),
      2 * specWeightedAux (List.replicate n k) pos = k * (2 * n * pos + n * (n + 1)) := by
  intro n
  induction n with
  | zero => intro pos; simp [specWeightedAux]
  | succ m ih =>
    intro pos
    have h := ih (pos + 1)
    simp only [List.replicate_succ, specWeightedAux]
    rw [Nat.mul_add, h]
    ring

/-- C3 (amended): for a successfully framed sequence the checksum verifies
exactly when the weighted sum of the specification, taken modulo 103, matches the
check symbol, provided the start value plus the weighted sum stays below 2 ^ 64
(the u64 accumulator of the code otherwise wraps); and the checksum of any
sequence that fails framing is false, not an error. -/
theorem checksum_correct :
    (∀ s sym syms check, data s = some (sym, syms, check) →
      sym.val + specWeighted syms < 2 ^ 64 →
      (checksum s = true ↔ (sym.val + specWeighted syms) % 103 = check)) ∧
    (∀ s, data s = none → checksum s = false) := by
  constructor
  · intro s sym syms check hd hlt
    unfold checksum
    rw [hd]
    simp only []
    rw [weightedSumAux_eq syms 0 0 (by norm_num)]
    rw [Nat.zero_add, Nat.mod_add_mod]
    rw [show specWeightedAux syms 0 + sym.val = sym.val + specWeighted syms by
      unfold specWeighted; omega]
    rw [Nat.mod_eq_of_lt hlt]
    simp
  · intro s hd
    unfold checksum
    rw [hd]

/-- Witness for the checksum characterization on the documented valid example and
on a sequence that fails framing. -/
theorem checksum_correct_witness :
    checksum [103, 48, 42, 42, 17, 18, 19, 35, 54, 106] = true ∧
    checksum [103] = false :=
  ⟨(checksum_correct.1 [103, 48, 42, 42, 17, 18, 19, 35, 54, 106]
      Symbology.A [48, 42, 42, 17, 18, 19, 35] 54 (by decide) (by decide)).mpr (by decide),
   checksum_correct.2 [103] (by decide)⟩

/-- C3 (counterexample): the claim as stated fails on the code for a framed
sequence whose weighted sum exceeds 2 ^ 64.  With 2 ^ 32 data symbols of value
100 after start code A, the u64 accumulator wraps: the code accepts check symbol
60 although the mathematical weighted-sum formula of the claim gives remainder
29, so the stated equivalence is false at this input. -/
theorem checksum_overflow_counterexample :
    data (103 :: (List.replicate (2 ^ 32) 100 ++ [60, 106])) =
      some (Symbology.A, List.replicate (2 ^ 32) 100, 60) ∧
    checksum (103 :: (List.replicate (2 ^ 32) 100 ++ [60, 106])) = true ∧
    (Symbology.A.val + specWeighted (List.replicate (2 ^ 32) 100)) % 103 ≠ 60 := by
  have hdata : data (103 :: (List.replicate (2 ^ 32) 100 ++ [60, 106])) =
      some (Symbology.A, List.replicate (2 ^ 32) 100, 60) := by
    rw [data_append]
    norm_num
  have hspec : specWeighted (List.replicate (2 ^ 32) 100) = 50 * (2 ^ 32 * (2 ^ 32 + 1)) := by
    have h := specWeightedAux_replicate 100 (2 ^ 32) 0
    unfold specWeighted
    omega
  refine ⟨hdata, ?_, ?_⟩
  · rw [checksum]
    rw [hdata]
    simp only []
    rw [weightedSumAux_eq _ 0 0 (by norm_num), Nat.zero_add]
    have hcast : specWeightedAux (List.replicate (2 ^ 32) 100) 0 =
        specWeighted (List.replicate (2 ^ 32) 100) := rfl
    rw [hcast, hspec]
    decide
  · rw [hspec]
    decide

end FeatherCode

namespace FeatherCode

theorem parse_cases (l : List Nat) :
    ∀ (p : Parser) (acc : String),
      (∃ t, parse p l acc = DecodeResult.ok t) ∨
      (∃ d, parse p l acc = DecodeResult.err (Error.DecodeErr d) ∧
        ∃ v, v ∈ l ∧ ∃ q, step q v = Step.fail d) := by
  induction l with
  | nil => intro p acc; exact Or.inl ⟨acc, rfl⟩
  | cons v rest ih =>
    intro p acc
    rw [parse]
    cases hs : step p v with
    | toState q out =>
      rcases ih q (acc ++ out) with ⟨t, ht⟩ | ⟨d, hd, w, hw, q2, hq2⟩
      · exact Or.inl ⟨t, ht⟩
      · exact Or.inr ⟨d, hd, w, List.mem_cons_of_mem v hw, q2, hq2⟩
    | halt => exact Or.inl ⟨acc, rfl⟩
    | fail msg =>
      exact Or.inr ⟨msg, rfl, v, List.mem_cons_self v rest, p, hs⟩

theorem step_fail_iff (p : Parser) (v : Nat) :
    (∃ d, step p v = Step.fail d) ↔
      ((p = Parser.ShiftA ∨ p = Parser.ShiftB) → 98 ≤ v) ∧
      ((p = Parser.A ∨ p = Parser.B ∨ p = Parser.C) →
        (v = 103 ∨ v = 104 ∨ v = 105 ∨ 107 ≤ v)) := by
  cases p <;> simp only [step] <;> split_ifs <;> simp <;> omega

/-- C8: the generic decoder is total over arbitrary symbol sequences: every
input produces either a decoded string or one of the typed errors
InvalidLength, BadFormat or DecodeErr, with no uncovered state-machine case. -/
theorem decode_total (s : List Nat) :
    (∃ t, decode s = DecodeResult.ok t) ∨
    (∃ n, decode s = DecodeResult.err (Error.InvalidLength n)) ∨
    (∃ d, decode s = DecodeResult.err (Error.BadFormat d)) ∨
    (∃ d, decode s = DecodeResult.err (Error.DecodeErr d)) := by
  rw [decode]
  by_cases hlen : s.length < 4
  · rw [if_pos hlen]
    exact Or.inr (Or.inl ⟨s.length, rfl⟩)
  · rw [if_neg hlen]
    cases hd : data s with
    | none => exact Or.inr (Or.inr (Or.inl ⟨"unrecognized format", rfl⟩))
    | some trip =>
      obtain ⟨sym, syms, check⟩ := trip
      rcases parse_cases syms (Parser.ofSymbology sym) "" with ⟨t, ht⟩ | ⟨d, hdd, _⟩
      · exact Or.inl ⟨t, ht⟩
      · exact Or.inr (Or.inr (Or.inr ⟨d, hdd⟩))

/-- C7: error taxonomy of decode.  InvalidLength is returned exactly on
sequences shorter than 4 and carries the actual length; for longer sequences
BadFormat is returned exactly when framing fails; DecodeErr arises only from a
symbol of the input on which the state machine has no accepting arm, and the
failing arms are exactly the start codes and out-of-range values in states A, B
and C, and every non-plain symbol in the shift states. -/
theorem decode_error_taxonomy (s : List Nat) :
    (∀ n, decode s = DecodeResult.err (Error.InvalidLength n) ↔
      (s.length < 4 ∧ n = s.length)) ∧
    (4 ≤ s.length →
      ((∃ d, decode s = DecodeResult.err (Error.BadFormat d)) ↔ data s = none)) ∧
    (∀ d, decode s = DecodeResult.err (Error.DecodeErr d) →
      ∃ v, v ∈ s ∧ ∃ p, step p v = Step.fail d) ∧
    (∀ p v, (∃ d, step p v = Step.fail d) ↔
      ((p = Parser.ShiftA ∨ p = Parser.ShiftB) → 98 ≤ v) ∧
      ((p = Parser.A ∨ p = Parser.B ∨ p = Parser.C) →
        (v = 103 ∨ v = 104 ∨ v = 105 ∨ 107 ≤ v))) := by
  by_cases hlen : s.length < 4
  · have hdec : decode s = DecodeResult.err (Error.InvalidLength s.length) := by
      rw [decode, if_pos hlen]
    refine ⟨?_, ?_, ?_, step_fail_iff⟩
    · intro n
      rw [hdec]
      constructor
      · intro h
        simp only [DecodeResult.err.injEq, Error.InvalidLength.injEq] at h
        exact ⟨hlen, h.symm⟩
      · intro h
        rw [h.2]
    · intro h4; omega
    · intro d h
      rw [hdec] at h
      simp at h
  · cases hd : data s with
    | none =>
      have hdec : decode s = DecodeResult.err (Error.BadFormat "unrecognized format") := by
        rw [decode, if_neg hlen, hd]
      refine ⟨?_, ?_, ?_, step_fail_iff⟩
      · intro n
        rw [hdec]
        constructor
        · intro h; simp at h
        · intro h; omega
      · intro _
        constructor
        · intro _; rfl
        · intro _; exact ⟨"unrecognized format", hdec⟩
      · intro d h
        rw [hdec] at h
        simp at h
    | some trip =>
      obtain ⟨sym, syms, check⟩ := trip
      have hdec : decode s = parse (Parser.ofSymbology sym) syms "" := by
        rw [decode, if_neg hlen, hd]
      have hshape := data_eq_some s sym syms check hd
      rcases parse_cases syms (Parser.ofSymbology sym) "" with ⟨t, ht⟩ | ⟨d0, hd0, w, hw, q, hq⟩
      · refine ⟨?_, ?_, ?_, step_fail_iff⟩
        · intro n
          rw [hdec, ht]
          constructor
          · intro h; simp at h
          · intro h; omega
        · intro _
          constructor
          · intro ⟨d, hdd⟩
            rw [hdec, ht] at hdd
            simp at hdd
          · intro hnone; simp at hnone
        · intro d h
          rw [hdec, ht] at h
          simp at h
      · refine ⟨?_, ?_, ?_, step_fail_iff⟩
        · intro n
          rw [hdec, hd0]
          constructor
          · intro h; simp at h
          · intro h; omega
        · intro _
          constructor
          · intro ⟨d, hdd⟩
            rw [hdec, hd0] at hdd
            simp at hdd
          · intro hnone; simp at hnone
        · intro d h
          rw [hdec, hd0] at h
          simp only [DecodeResult.err.injEq, Error.DecodeErr.injEq] at h
          subst h
          refine ⟨w, ?_, q, hq⟩
          rw [hshape]
          simp only [List.mem_cons, List.mem_append]
          right; left
          exact hw

/-- Witness for the decode error taxonomy at concrete inputs exercising each
part of the statement. -/
theorem decode_error_taxonomy_witness :
    decode [103, 0] = DecodeResult.err (Error.InvalidLength 2) ∧
    (∃ d, decode [5, 5, 5, 5] = DecodeResult.err (Error.BadFormat d)) ∧
    (∃ v, v ∈ [103, 105, 0, 106] ∧
      ∃ p, step p v = Step.fail "unrecognized encoding 105") ∧
    (∃ d, step Parser.A 104 = Step.fail d) :=
  ⟨((decode_error_taxonomy [103, 0]).1 2).mpr (by decide),
   ((decode_error_taxonomy [5, 5, 5, 5]).2.1 (by decide)).mpr (by decide),
   (decode_error_taxonomy [103, 105, 0, 106]).2.2.1 "unrecognized encoding 105" (by decide),
   ((decode_error_taxonomy [103, 105, 0, 106]).2.2.2 Parser.A 104).mpr (by decide)⟩

/-- C10: the decoded result never depends on the check symbol: two sequences
that frame successfully and agree everywhere except at the check position
decode to identical results. -/
theorem decode_check_symbol_independent (st : Nat) (body : List Nat) (c1 c2 : Nat)
    (h : st = 103 ∨ st = 104 ∨ st = 105) :
    decode (st :: (body ++ [c1, 106])) = decode (st :: (body ++ [c2, 106])) := by
  rw [decode, decode]
  have h1 : (st :: (body ++ [c1, 106])).length = body.length + 3 := by simp
  have h2 : (st :: (body ++ [c2, 106])).length = body.length + 3 := by simp
  rw [h1, h2, data_append, data_append]
  rcases h with h | h | h <;> subst h <;> simp

/-- Witness for check-symbol independence at a concrete pair of inputs. -/
theorem decode_check_symbol_independent_witness :
    decode (103 :: ([5] ++ [0, 106])) = decode (103 :: ([5] ++ [99, 106])) :=
  decode_check_symbol_independent 103 [5] 0 99 (by decide)

end FeatherCode
